import Mathlib

/-!
Verification of the thickness-measurement pipeline of `main.py`
(Slice-Thickness-MPhys).  The Python source is shallowly embedded:
pixel intensities and physical quantities are rationals, machine
floats are modelled exactly, and Python runtime exceptions
(ZeroDivisionError, NameError, IndexError, ValueError) are modelled
with an explicit `Except` error type.
-/

/-- Python runtime failures that the embedded code can raise.
`emptySource` is the error class named by the specification's taxonomy;
it is included so that statements can compare against it. -/
inductive PyErr where
  | zeroDivisionError
  | nameError
  | indexError
  | valueError
  | emptySource
deriving DecidableEq

/-- A single-channel image: `pix r c` is the intensity at row `r`,
column `c`; row 0 is the top of the image (source data model). -/
structure Frame where
  height : Nat
  width : Nat
  pix : Nat → Nat → ℚ

/-- A colour frame in OpenCV's BGR channel order. -/
structure ColorFrame where
  height : Nat
  width : Nat
  pix : Nat → Nat → ℚ × ℚ × ℚ

/-- Clamp an integer intensity into the uint8 range, as OpenCV's
saturate_cast does when producing an 8-bit image. -/
def saturate_uint8 (z : ℤ) : ℚ :=
  ((max 0 (min 255 z) : ℤ) : ℚ)

/-- `cv2.cvtColor(frame, cv2.COLOR_BGR2GRAY)` (main.py line 87): the
BT.601 luma combination 0.299 R + 0.587 G + 0.114 B of the BGR
channels, rounded and saturated to uint8.  (The exact tie-breaking of
OpenCV's rounding at .5 is immaterial to every claim proved below.) -/
def cvtColor_gray (f : ColorFrame) : Frame :=
  ⟨f.height, f.width, fun r c =>
    saturate_uint8 (round ((299 / 1000 : ℚ) * (f.pix r c).2.2
      + (587 / 1000 : ℚ) * (f.pix r c).2.1
      + (114 / 1000 : ℚ) * (f.pix r c).1))⟩

/-- OpenCV's fixed small Gaussian kernels, used by `getGaussianKernel`
whenever `sigma <= 0` and the kernel size is 1, 3, 5 or 7 — which
covers the program's only call, `cv2.GaussianBlur(gray, (1, 1), 0)`
(main.py line 88).  Other sizes would use the exp-based formula, a
path this program never takes, left unmodelled (empty kernel). -/
def small_gaussian_tab : Nat → List ℚ
  | 1 => [1]
  | 3 => [1/4, 1/2, 1/4]
  | 5 => [1/16, 1/4, 3/8, 1/4, 1/16]
  | 7 => [1/32, 7/64, 7/32, 9/32, 7/32, 7/64, 1/32]
  | _ => []

/-- OpenCV's default border mode BORDER_REFLECT_101 for an axis of
length `n` (reflection without repeating the edge pixel), adequate for
kernel radii smaller than the image, which is all the program uses. -/
def border_reflect101 (n : Nat) (i : ℤ) : ℤ :=
  if i < 0 then -i else if (n : ℤ) ≤ i then 2 * ((n : ℤ) - 1) - i else i

/-- Read a pixel at possibly out-of-range signed coordinates using
BORDER_REFLECT_101 on both axes. -/
def getPix (f : Frame) (r c : ℤ) : ℚ :=
  f.pix (border_reflect101 f.height r).toNat (border_reflect101 f.width c).toNat

/-- Horizontal pass of the separable Gaussian filter: correlate each
row with the 1-D kernel `k`, anchored at `k.length / 2`. -/
def conv_horizontal (k : List ℚ) (f : Frame) : Frame :=
  ⟨f.height, f.width, fun r c =>
    (List.range k.length).foldl
      (fun acc j => acc + k.getD j 0 * getPix f (r : ℤ) ((c : ℤ) + (j : ℤ) - ((k.length / 2 : Nat) : ℤ)))
      0⟩

/-- Vertical pass of the separable Gaussian filter. -/
def conv_vertical (k : List ℚ) (f : Frame) : Frame :=
  ⟨f.height, f.width, fun r c =>
    (List.range k.length).foldl
      (fun acc j => acc + k.getD j 0 * getPix f ((r : ℤ) + (j : ℤ) - ((k.length / 2 : Nat) : ℤ)) (c : ℤ))
      0⟩

/-- `cv2.GaussianBlur(gray, (ksize, ksize), 0)`: separable convolution
with the sigma-zero Gaussian kernel of the given odd size. -/
def gaussian_blur (f : Frame) (ksize : Nat) : Frame :=
  conv_vertical (small_gaussian_tab ksize) (conv_horizontal (small_gaussian_tab ksize) f)

/-- `preprocess_frame` (main.py lines 81-91): grayscale conversion
followed by `cv2.GaussianBlur(gray, (1, 1), 0)`.  The visualization
hook is display-only and has no effect on the returned data. -/
def preprocess_frame (frame : ColorFrame) : Frame :=
  gaussian_blur (cvtColor_gray frame) 1

/-- The in-place slice assignment `preprocessed_frame[:top_threshold_pixels, :] = 0`
(main.py line 260): zero the first `top` rows. -/
def mask_top (f : Frame) (top : Nat) : Frame :=
  ⟨f.height, f.width, fun r c => if r < top then 0 else f.pix r c⟩

/-- Python's `int(x)` on a real value: truncation toward zero. -/
def py_int (q : ℚ) : ℤ :=
  q.num.tdiv (q.den : ℤ)

/-- One iteration of the loop in `extract_vertical_lines` (main.py
lines 106-109): compute `x = middle_x + (i - num_lines // 2) * line_separation`
and take the column slice `frame[:, x]`.  NumPy indexing semantics:
an index `x` with `-width ≤ x < 0` silently wraps to column
`width + x`; an index outside `[-width, width)` raises IndexError. -/
def extract_line (f : Frame) (num_lines : Nat) (line_separation_percent : ℚ) (i : Nat) :
    Except PyErr (List ℚ) :=
  let line_separation : ℤ := py_int ((f.width : ℚ) * line_separation_percent)
  let middle_x : ℤ := ((f.width / 2 : Nat) : ℤ)
  let x : ℤ := middle_x + ((i : ℤ) - ((num_lines / 2 : Nat) : ℤ)) * line_separation
  if x < -(f.width : ℤ) ∨ (f.width : ℤ) ≤ x then .error .indexError
  else
    .ok ((List.range f.height).map (fun r =>
      f.pix r (if x < 0 then ((f.width : ℤ) + x).toNat else x.toNat)))

/-- `extract_vertical_lines` (main.py lines 93-110): the list of
`num_lines` column profiles; an IndexError on any line aborts the call. -/
def extract_vertical_lines (f : Frame) (num_lines : Nat) (line_separation_percent : ℚ) :
    Except PyErr (List (List ℚ)) :=
  (List.range num_lines).mapM (extract_line f num_lines line_separation_percent)

/-- `np.max` of a 1-D array: `none` models the ValueError NumPy raises
on an empty array. -/
def np_max : List ℚ → Option ℚ
  | [] => none
  | x :: xs => some (xs.foldl max x)

/-- Scan state of the loop in `calculate_thickness` (main.py lines
122-131): the local variables `start`, `in_peak` and `thickness`. -/
structure ScanState where
  start : Nat
  in_peak : Bool
  thickness : ℤ
deriving DecidableEq

/-- The body of the loop in `calculate_thickness` at index `i` with
profile value `v`:  enter the peak when `v >= half_max` and not
`in_peak`; on leaving (`v < half_max` while `in_peak`) overwrite
`thickness` with `i - start`. -/
def scan_step (half_max : ℚ) (s : ScanState) (i : Nat) (v : ℚ) : ScanState :=
  if half_max ≤ v ∧ ¬ s.in_peak then { s with start := i, in_peak := true }
  else if v < half_max ∧ s.in_peak then { s with in_peak := false, thickness := (i : ℤ) - (s.start : ℤ) }
  else s

/-- The loop `for i in range(len(intensity_profile))` of
`calculate_thickness`, with the running index made explicit. -/
def scan_aux (half_max : ℚ) : Nat → ScanState → List ℚ → ScanState
  | _, s, [] => s
  | i, s, v :: vs => scan_aux half_max (i + 1) (scan_step half_max s i v) vs

/-- `calculate_thickness` (main.py lines 112-132): `half_max` is
`np.max(profile) * threshold`; the scan overwrites `thickness` on each
completed crossing; an empty profile raises ValueError via `np.max`. -/
def calculate_thickness (intensity_profile : List ℚ) (threshold : ℚ) : Except PyErr ℤ :=
  match np_max intensity_profile with
  | none => .error .valueError
  | some max_intensity =>
    .ok (scan_aux (max_intensity * threshold) 0 ⟨0, false, 0⟩ intensity_profile).thickness

/-- State for the crossing-collecting variant of the same scan. -/
structure CrossState where
  start : Nat
  in_peak : Bool
  crossings : List (Nat × Nat)
deriving DecidableEq

/-- Same branch structure as `scan_step`, but recording every
completed crossing `(entry_index, exit_index)` instead of overwriting. -/
def cross_step (half_max : ℚ) (s : CrossState) (i : Nat) (v : ℚ) : CrossState :=
  if half_max ≤ v ∧ ¬ s.in_peak then { s with start := i, in_peak := true }
  else if v < half_max ∧ s.in_peak then
    { s with in_peak := false, crossings := s.crossings ++ [(s.start, i)] }
  else s

/-- Crossing-collecting scan, indices made explicit. -/
def cross_aux (half_max : ℚ) : Nat → CrossState → List ℚ → CrossState
  | _, s, [] => s
  | i, s, v :: vs => cross_aux half_max (i + 1) (cross_step half_max s i v) vs

/-- The list of completed half-max crossings of a profile, in index
order: the instrumented view of the detector's scan used to state the
tie-break law. -/
def crossings (intensity_profile : List ℚ) (half_max : ℚ) : List (Nat × Nat) :=
  (cross_aux half_max 0 ⟨0, false, []⟩ intensity_profile).crossings

/-- Width of the last crossing in a list, or the default `t` when no
crossing exists. -/
def last_width (t : ℤ) (cs : List (Nat × Nat)) : ℤ :=
  match cs.getLast? with
  | some ab => (ab.2 : ℤ) - (ab.1 : ℤ)
  | none => t

/-- The video handle of `analyze_video` (main.py lines 213-216):
frame count, frame dimensions, and indexed frame reads; `read` returns
`none` when `video.read()` reports failure for that index. -/
structure FrameSource where
  frame_count : Nat
  height : Nat
  width : Nat
  read : Nat → Option ColorFrame

/-- The data returned by `analyze_video` (main.py line 288): the
`depths` and `thicknesses` lists and `total_pixels`.  The wall-clock
`analysis_time` is not part of the numeric behaviour and is omitted. -/
structure AnalyzeResult where
  depths : List ℚ
  thicknesses : List ℚ
  total_pixels : ℤ
deriving DecidableEq

/-- `range(0, max_frame_num, frame_interval)` (main.py line 247) for a
positive step: the indices 0, stride, 2·stride, ... below `n`. -/
def sampled_indices (n stride : Nat) : List Nat :=
  (List.range ((n + stride - 1) / stride)).map (fun k => k * stride)

/-- The rejection condition of the exclusion-zone validation loop
`while exclusion_zone_depth < 0 or exclusion_zone_depth > height`
(main.py lines 233-234): an offset is re-prompted exactly when this is
true, so the loop accepts any offset in `[0, height]` inclusive. -/
def exclusion_input_rejected (exclusion_zone_depth : ℚ) (height : Nat) : Bool :=
  decide (exclusion_zone_depth < 0) || decide ((height : ℚ) < exclusion_zone_depth)

/-- Exclusion-zone resolution in `analyze_video` (main.py lines
222-243), with the interactive prompt modelled by the parameter
`exclusion_zone_depth` (the value the validation loop finally
accepts).  Returns the effective `top_threshold_pixels` and
`total_pixels`; the latter is `none` when the Python code leaves the
local `total_pixels` unassigned (exclusion enabled but the first-frame
read failed), which surfaces as a NameError at the `return`.
`frame_height` is the module-scope global read on lines 241/243. -/
def resolve_exclusion (src : FrameSource) (use_exclusion_zone : Bool)
    (frame_height : Nat) (top_threshold_pixels : Nat) (exclusion_zone_depth : ℚ) :
    Nat × Option ℤ :=
  if use_exclusion_zone then
    match src.read 0 with
    | some _ =>
      ((py_int exclusion_zone_depth).toNat,
        some ((frame_height : ℤ) - ((py_int exclusion_zone_depth).toNat : ℤ)))
    | none => (top_threshold_pixels, none)
  else (top_threshold_pixels, some ((frame_height : ℤ)))

/-- One iteration of the frame loop of `analyze_video` (main.py lines
247-280): read the frame (a failed read skips the index), preprocess,
zero the top rows, extract the vertical lines, compute the per-line
thicknesses, drop the non-positive ones, and — when at least one
remains — produce the `(depth, mean thickness)` entry with
`depth = frame_num * depth_increment`. -/
def frame_entry (src : FrameSource) (threshold line_separation_percent : ℚ)
    (num_lines top : Nat) (depth_increment : ℚ) (frame_num : Nat) :
    Except PyErr (Option (ℚ × ℚ)) :=
  match src.read frame_num with
  | none => .ok none
  | some frame =>
    match extract_vertical_lines (mask_top (preprocess_frame frame) top)
        num_lines line_separation_percent with
    | .error e => .error e
    | .ok vertical_lines =>
      match vertical_lines.mapM (fun line => calculate_thickness line threshold) with
      | .error e => .error e
      | .ok ts =>
        let line_thicknesses := ts.filter (fun t => decide (0 < t))
        if line_thicknesses.isEmpty then .ok none
        else
          .ok (some ((frame_num : ℚ) * depth_increment,
            (line_thicknesses.map (fun t : ℤ => (t : ℚ))).sum / (line_thicknesses.length : ℚ)))

/-- The frame loop of `analyze_video` over the sampled indices: a
Python exception inside the loop aborts the whole analysis; frames
whose entry is `none` contribute nothing to the series. -/
def process_frames (src : FrameSource) (threshold line_separation_percent : ℚ)
    (num_lines top : Nat) (depth_increment : ℚ) :
    List Nat → Except PyErr (List (ℚ × ℚ))
  | [] => .ok []
  | f :: rest =>
    match frame_entry src threshold line_separation_percent num_lines top depth_increment f with
    | .error e => .error e
    | .ok none => process_frames src threshold line_separation_percent num_lines top depth_increment rest
    | .ok (some pr) =>
      match process_frames src threshold line_separation_percent num_lines top depth_increment rest with
      | .error e => .error e
      | .ok es => .ok (pr :: es)

/-- `analyze_video` (main.py lines 198-288).  The module-scope globals
it reads (`use_exclusion_zone`, `frame_height`) and the interactive
exclusion input are passed as parameters.  Python evaluation order is
preserved: the exclusion block runs first; then
`depth_increment = max_depth / frame_count` raises ZeroDivisionError
when the source has zero frames; `range` with a zero step raises
ValueError; and a `total_pixels` left unassigned raises NameError at
the `return` statement. -/
def analyze_video (src : FrameSource) (frame_interval : Nat) (max_depth : ℚ)
    (num_lines : Nat) (threshold : ℚ) (line_separation_percent : ℚ)
    (top_threshold_pixels : Nat) (use_exclusion_zone : Bool)
    (frame_height : Nat) (exclusion_zone_depth : ℚ) :
    Except PyErr AnalyzeResult :=
  let rz := resolve_exclusion src use_exclusion_zone frame_height
    top_threshold_pixels exclusion_zone_depth
  if src.frame_count = 0 then .error .zeroDivisionError
  else if frame_interval = 0 then .error .valueError
  else
    match process_frames src threshold line_separation_percent num_lines rz.1
        (max_depth / (src.frame_count : ℚ))
        (sampled_indices src.frame_count frame_interval) with
    | .error e => .error e
    | .ok series =>
      match rz.2 with
      | none => .error .nameError
      | some tp => .ok ⟨series.map Prod.fst, series.map Prod.snd, tp⟩

/-- Names assigned at module scope in main.py before the calls to
`analyze_video` on lines 308/311 (lines 291-306; `num_lines` is
assigned only on the multi-line branch, line 306).  The name
`top_threshold_pixels` is present only as a function parameter and a
local of `analyze_video` — it is never assigned at module scope. -/
inductive PyName where
  | video_path | save_location | video | frame_width | frame_height
  | max_depth_mm | frame_interval | desired_interval | use_multiple_lines
  | enable_visualizations | use_exclusion_zone | num_lines
  | top_threshold_pixels
deriving DecidableEq

/-- The module-scope environment at the point of the calls on lines
308/311 of main.py. -/
def module_scope_names : List PyName :=
  [.video_path, .save_location, .video, .frame_width, .frame_height,
   .max_depth_mm, .frame_interval, .desired_interval, .use_multiple_lines,
   .enable_visualizations, .use_exclusion_zone, .num_lines]

/-- The argument expression
`top_threshold_pixels if use_exclusion_zone else 0` on main.py lines
308/311: the conditional is lazy, so the name `top_threshold_pixels`
is resolved in the module scope only when the exclusion zone is
enabled; since it is absent there, that branch raises NameError.  (The
`.ok 0` value of the inner then-branch is unreachable: the membership
test is false by computation.) -/
def top_threshold_arg (use_exclusion_zone : Bool) : Except PyErr Nat :=
  if use_exclusion_zone then
    if PyName.top_threshold_pixels ∈ module_scope_names then .ok 0
    else .error .nameError
  else .ok 0

/-- The module-level calibration and conversion (main.py lines
313-317): `pixel_to_mm_ratio = max_depth_mm / total_pixels` — a
ZeroDivisionError when `total_pixels` is zero — and
`thicknesses_mm = [t * pixel_to_mm_ratio for t in thicknesses]`.
Returns the ratio and the converted list. -/
def main_convert (max_depth_mm : ℚ) (res : AnalyzeResult) : Except PyErr (ℚ × List ℚ) :=
  if res.total_pixels = 0 then .error .zeroDivisionError
  else
    .ok (max_depth_mm / (res.total_pixels : ℚ),
      res.thicknesses.map (fun t => t * (max_depth_mm / (res.total_pixels : ℚ))))

/-- Result of the whole module-level run. -/
structure MainResult where
  depths : List ℚ
  thicknesses : List ℚ
  thicknesses_mm : List ℚ
  px_to_mm : ℚ
  total_pixels : ℤ
deriving DecidableEq

/-- The module-level code path of main.py from the `analyze_video`
call (lines 305-317): evaluate the `top_threshold_pixels if
use_exclusion_zone else 0` argument, run the analysis (with `1` as the
line count on the single-line branch), then compute the calibration
ratio (field `px_to_mm` here, `pixel_to_mm_ratio` in the source) and
the millimetre thicknesses. -/
def run_main (src : FrameSource) (max_depth_mm : ℚ) (frame_interval : Nat)
    (num_lines : Nat) (use_multiple_lines : Bool) (use_exclusion_zone : Bool)
    (exclusion_zone_depth : ℚ) : Except PyErr MainResult :=
  match top_threshold_arg use_exclusion_zone with
  | .error e => .error e
  | .ok top =>
    match analyze_video src frame_interval max_depth_mm
        (if use_multiple_lines then num_lines else 1) (1/2) (1/10) top
        use_exclusion_zone src.height exclusion_zone_depth with
    | .error e => .error e
    | .ok res =>
      match main_convert max_depth_mm res with
      | .error e => .error e
      | .ok rt => .ok ⟨res.depths, res.thicknesses, rt.2, rt.1, res.total_pixels⟩

theorem last_width_cons (t : ℤ) (ab : Nat × Nat) (cs : List (Nat × Nat)) :
    last_width t (ab :: cs) = last_width ((ab.2 : ℤ) - (ab.1 : ℤ)) cs := by
  cases cs with
  | nil => simp [last_width]
  | cons c cs' =>
    simp only [last_width, List.getLast?_cons_cons]
    rcases h : (c :: cs').getLast? with _ | d
    · rw [List.getLast?_eq_none_iff] at h
      cases h
    · rfl

theorem cross_aux_append (half : ℚ) (xs : List ℚ) :
    ∀ (i st : Nat) (ip : Bool) (cs : List (Nat × Nat)),
      (cross_aux half i ⟨st, ip, cs⟩ xs).crossings
        = cs ++ (cross_aux half i ⟨st, ip, []⟩ xs).crossings := by
  induction xs with
  | nil => intro i st ip cs; simp [cross_aux]
  | cons v vs ih =>
    intro i st ip cs
    simp only [cross_aux, cross_step]
    split_ifs with h1 h2
    · exact ih (i + 1) i true cs
    · rw [ih (i + 1) st false (cs ++ [(st, i)]), ih (i + 1) st false ([] ++ [(st, i)])]
      simp [List.append_assoc]
    · exact ih (i + 1) st ip cs

theorem scan_aux_last_width (half : ℚ) (xs : List ℚ) :
    ∀ (i st : Nat) (ip : Bool) (t : ℤ),
      (scan_aux half i ⟨st, ip, t⟩ xs).thickness
        = last_width t (cross_aux half i ⟨st, ip, []⟩ xs).crossings := by
  induction xs with
  | nil => intro i st ip t; simp [scan_aux, cross_aux, last_width]
  | cons v vs ih =>
    intro i st ip t
    simp only [scan_aux, cross_aux, scan_step, cross_step]
    split_ifs with h1 h2
    · exact ih (i + 1) i true t
    · rw [ih (i + 1) st false ((i : ℤ) - (st : ℤ))]
      rw [cross_aux_append half vs (i + 1) st false ([] ++ [(st, i)])]
      simp only [List.nil_append, List.singleton_append]
      rw [last_width_cons]
    · exact ih (i + 1) st ip t

theorem cross_aux_bounds (half : ℚ) (xs : List ℚ) :
    ∀ (i st : Nat) (ip : Bool), (ip = true → st < i) →
      ∀ ab ∈ (cross_aux half i ⟨st, ip, []⟩ xs).crossings, ab.1 < ab.2 := by
  induction xs with
  | nil => intro i st ip _ ab hab; simp [cross_aux] at hab
  | cons v vs ih =>
    intro i st ip hst ab hab
    simp only [cross_aux, cross_step] at hab
    split_ifs at hab with h1 h2
    · exact ih (i + 1) i true (fun _ => Nat.lt_succ_self i) ab hab
    · rw [cross_aux_append half vs (i + 1) st false ([] ++ [(st, i)])] at hab
      simp only [List.nil_append, List.singleton_append, List.mem_cons] at hab
      rcases hab with h | h
      · subst h; exact hst h2.2
      · exact ih (i + 1) st false (by simp) ab h
    · exact ih (i + 1) st ip (fun h => Nat.lt_succ_of_lt (hst h)) ab hab

theorem getLast?_mem_of_eq {α : Type} {l : List α} {a : α} (h : l.getLast? = some a) :
    a ∈ l := by
  cases l with
  | nil => cases h
  | cons x xs =>
    rw [List.getLast?_eq_getLast_of_ne_nil (List.cons_ne_nil x xs)] at h
    injection h with h
    subst h
    exact List.getLast_mem _

/-- C1: for every intensity profile whose half-max scan completes two
or more crossings (two or more separated pulses above half_max),
`calculate_thickness` returns the width `exit_index − entry_index` of
the **last** completed crossing in index order, each exit having
overwritten the previous candidate. -/
theorem calculate_thickness_last_crossing (p : List ℚ) (threshold m : ℚ)
    (hm : np_max p = some m) (a b : Nat)
    (hlast : (crossings p (m * threshold)).getLast? = some (a, b))
    (htwo : 2 ≤ (crossings p (m * threshold)).length) :
    calculate_thickness p threshold = .ok ((b : ℤ) - (a : ℤ)) := by
  simp only [calculate_thickness, hm]
  rw [scan_aux_last_width (m * threshold) p 0 0 false 0]
  unfold crossings at hlast
  simp [last_width, hlast]

/-- Concrete two-pulse run of C1: the profile `[10, 0, 10, 10, 0]` at
threshold 1/2 has crossings `[(0,1), (2,4)]`; the detector returns the
width 2 of the last one, not the first. -/
theorem calculate_thickness_last_crossing_witness :
    np_max [(10 : ℚ), 0, 10, 10, 0] = some 10
    ∧ (crossings [(10 : ℚ), 0, 10, 10, 0] (10 * (1/2))).getLast? = some (2, 4)
    ∧ 2 ≤ (crossings [(10 : ℚ), 0, 10, 10, 0] (10 * (1/2))).length
    ∧ calculate_thickness [(10 : ℚ), 0, 10, 10, 0] (1/2) = .ok 2 := by
  have h1 : np_max [(10 : ℚ), 0, 10, 10, 0] = some 10 := by
    norm_num [np_max]
  have h2 : crossings [(10 : ℚ), 0, 10, 10, 0] (10 * (1/2)) = [(0, 1), (2, 4)] := by
    norm_num [crossings, cross_aux, cross_step]
  refine ⟨h1, by rw [h2]; decide, by rw [h2]; norm_num, ?_⟩
  have h := calculate_thickness_last_crossing [(10 : ℚ), 0, 10, 10, 0] (1/2) 10
    h1 2 4 (by rw [h2]; decide) (by rw [h2]; norm_num)
  simpa using h

/-- C7: whenever the half-max scan completes no crossing (the profile
never reaches half_max, or the last entry into the region is never
followed by an exit), `calculate_thickness` returns 0; and whatever
value the detector returns on any profile is never negative. -/
theorem calculate_thickness_no_crossing (p : List ℚ) (threshold m : ℚ)
    (hm : np_max p = some m) (h0 : crossings p (m * threshold) = []) :
    calculate_thickness p threshold = .ok 0
    ∧ ∀ (q : List ℚ) (tau : ℚ) (r : ℤ), calculate_thickness q tau = .ok r → 0 ≤ r := by
  constructor
  · simp only [calculate_thickness, hm]
    rw [scan_aux_last_width (m * threshold) p 0 0 false 0]
    unfold crossings at h0
    simp [last_width, h0]
  · intro q tau r h
    unfold calculate_thickness at h
    rcases hq : np_max q with _ | m'
    · rw [hq] at h; cases h
    · rw [hq] at h
      injection h with h
      rw [scan_aux_last_width (m' * tau) q 0 0 false 0] at h
      rcases hcl : (cross_aux (m' * tau) 0 ⟨0, false, []⟩ q).crossings.getLast? with _ | ab
      · simp [last_width, hcl] at h
        omega
      · simp [last_width, hcl] at h
        have hmem := getLast?_mem_of_eq hcl
        have hb := cross_aux_bounds (m' * tau) q 0 0 false (by simp) ab hmem
        omega

/-- Concrete no-crossing run of C7: the profile `[0, 0, 10]` enters the
half-max region at its last index and never exits, so no crossing
completes and the detector returns 0. -/
theorem calculate_thickness_no_crossing_witness :
    np_max [(0 : ℚ), 0, 10] = some 10
    ∧ crossings [(0 : ℚ), 0, 10] (10 * (1/2)) = []
    ∧ calculate_thickness [(0 : ℚ), 0, 10] (1/2) = .ok 0 := by
  have h1 : np_max [(0 : ℚ), 0, 10] = some 10 := by
    norm_num [np_max]
  have h2 : crossings [(0 : ℚ), 0, 10] (10 * (1/2)) = [] := by
    norm_num [crossings, cross_aux, cross_step]
  exact ⟨h1, h2, (calculate_thickness_no_crossing [(0 : ℚ), 0, 10] (1/2) 10 h1 h2).1⟩

theorem border_reflect101_coe (n i : Nat) (h : i < n) :
    (border_reflect101 n (i : ℤ)).toNat = i := by
  unfold border_reflect101
  rw [if_neg (by omega), if_neg (by omega)]
  omega

theorem getPix_of_lt (f : Frame) (r c : Nat) (hr : r < f.height) (hc : c < f.width) :
    getPix f (r : ℤ) (c : ℤ) = f.pix r c := by
  unfold getPix
  rw [border_reflect101_coe _ _ hr, border_reflect101_coe _ _ hc]

theorem conv_horizontal_single (g : Frame) (r c : Nat)
    (hr : r < g.height) (hc : c < g.width) :
    (conv_horizontal [1] g).pix r c = g.pix r c := by
  have h1 : List.range ([(1 : ℚ)].length) = [0] := rfl
  simp only [conv_horizontal, h1, List.foldl_cons, List.foldl_nil]
  norm_num
  exact getPix_of_lt g r c hr hc

theorem conv_vertical_single (g : Frame) (r c : Nat)
    (hr : r < g.height) (hc : c < g.width) :
    (conv_vertical [1] g).pix r c = g.pix r c := by
  have h1 : List.range ([(1 : ℚ)].length) = [0] := rfl
  simp only [conv_vertical, h1, List.foldl_cons, List.foldl_nil]
  norm_num
  exact getPix_of_lt g r c hr hc

theorem preprocess_frame_pix (f : ColorFrame) (r c : Nat)
    (hr : r < f.height) (hc : c < f.width) :
    (preprocess_frame f).pix r c = (cvtColor_gray f).pix r c := by
  show (conv_vertical [1] (conv_horizontal [1] (cvtColor_gray f))).pix r c
    = (cvtColor_gray f).pix r c
  rw [conv_vertical_single _ r c hr hc, conv_horizontal_single _ r c hr hc]

/-- C10: the preprocessor's Gaussian blur uses a 1×1 kernel, whose
sigma-zero OpenCV kernel is the singleton `[1]`, so the blur is the
identity: the preprocessed frame has the same dimensions as, and is
pixel-for-pixel equal to, the plain grayscale conversion of the input
— no smoothing is actually applied. -/
theorem preprocess_is_grayscale (f : ColorFrame) :
    (preprocess_frame f).height = (cvtColor_gray f).height
    ∧ (preprocess_frame f).width = (cvtColor_gray f).width
    ∧ ∀ r c : Nat, r < f.height → c < f.width →
        (preprocess_frame f).pix r c = (cvtColor_gray f).pix r c := by
  refine ⟨rfl, rfl, ?_⟩
  intro r c hr hc
  exact preprocess_frame_pix f r c hr hc

/-- Concrete instance of C10 on a 1×1 frame with BGR value (7, 20, 55). -/
theorem preprocess_is_grayscale_witness :
    (preprocess_frame ⟨1, 1, fun _ _ => (7, 20, 55)⟩).pix 0 0
      = (cvtColor_gray ⟨1, 1, fun _ _ => (7, 20, 55)⟩).pix 0 0 := by
  exact (preprocess_is_grayscale ⟨1, 1, fun _ _ => (7, 20, 55)⟩).2.2 0 0
    (by norm_num) (by norm_num)

theorem py_int_intCast (z : ℤ) : py_int (z : ℚ) = z := by
  simp [py_int, Rat.num_intCast, Rat.den_intCast]

/-- The column index `x = middle_x + (i - num_lines // 2) * line_separation`
computed by `extract_vertical_lines` for line `i` (main.py line 107). -/
def computed_column (f : Frame) (num_lines : Nat) (line_separation_percent : ℚ) (i : Nat) : ℤ :=
  ((f.width / 2 : Nat) : ℤ)
    + ((i : ℤ) - ((num_lines / 2 : Nat) : ℤ)) * py_int ((f.width : ℚ) * line_separation_percent)

theorem extract_line_eq (f : Frame) (num_lines : Nat) (line_separation_percent : ℚ) (i : Nat) :
    extract_line f num_lines line_separation_percent i
      = if computed_column f num_lines line_separation_percent i < -(f.width : ℤ)
           ∨ (f.width : ℤ) ≤ computed_column f num_lines line_separation_percent i
        then .error .indexError
        else .ok ((List.range f.height).map (fun r =>
          f.pix r (if computed_column f num_lines line_separation_percent i < 0
                   then ((f.width : ℤ) + computed_column f num_lines line_separation_percent i).toNat
                   else (computed_column f num_lines line_separation_percent i).toNat))) := rfl

/-- C5, corrected: the sampler's out-of-range policy is deterministic
but is neither clamp-into-range nor a uniform failure.  For each line
index `i` the computed column `x`: when `-width ≤ x < 0` the sampler
silently samples the different column `width + x` (NumPy wrap-around);
only when `x < -width` or `x ≥ width` does the extraction fail with an
IndexError. -/
theorem extract_line_policy (f : Frame) (num_lines : Nat)
    (line_separation_percent : ℚ) (i : Nat) (hi : i < num_lines) :
    (extract_vertical_lines f num_lines line_separation_percent
        = (List.range num_lines).mapM (extract_line f num_lines line_separation_percent))
    ∧ (-(f.width : ℤ) ≤ computed_column f num_lines line_separation_percent i
        ∧ computed_column f num_lines line_separation_percent i < (f.width : ℤ) →
        extract_line f num_lines line_separation_percent i
          = .ok ((List.range f.height).map (fun r =>
              f.pix r (if computed_column f num_lines line_separation_percent i < 0
                       then ((f.width : ℤ) + computed_column f num_lines line_separation_percent i).toNat
                       else (computed_column f num_lines line_separation_percent i).toNat))))
    ∧ ((computed_column f num_lines line_separation_percent i < -(f.width : ℤ)
        ∨ (f.width : ℤ) ≤ computed_column f num_lines line_separation_percent i) →
        extract_line f num_lines line_separation_percent i = .error .indexError) := by
  refine ⟨rfl, ?_, ?_⟩
  · intro h
    rw [extract_line_eq]
    rw [if_neg (by omega)]
  · intro h
    rw [extract_line_eq]
    rw [if_pos h]

/-- A 1×10 frame whose pixel value records its column index, making
visible which column a profile was sampled from. -/
def exF : Frame := ⟨1, 10, fun _ c => (c : ℚ)⟩

theorem exF_column : computed_column exF 2 (7/10) 0 = -2 := by
  have h : ((exF.width : ℚ) * (7/10)) = ((7 : ℤ) : ℚ) := by
    norm_num [exF]
  simp only [computed_column, h, py_int_intCast]
  norm_num [exF]

/-- Concrete wrap-around run of corrected C5: on `exF` with two lines
at separation 0.7, line 0 has computed column −2 ∈ [−width, 0), and
the sampler returns the data of column 8 = width + (−2). -/
theorem extract_line_policy_witness :
    extract_line exF 2 (7/10) 0 = .ok [(8 : ℚ)] := by
  have h := (extract_line_policy exF 2 (7/10) 0 (by norm_num)).2.1
    (by rw [exF_column]; constructor <;> norm_num [exF])
  rw [h, exF_column]
  norm_num [exF, List.range_succ, show (Int.toNat 8 : Nat) = 8 from rfl]

/-- Counterexample to C5 as stated: the computed column −2 for line 0
lies outside `[0, width)`, yet the sampler neither clamps it into
range (clamping would return column 0's data, the profile `[0]`) nor
fails: it silently returns column 8's data `[8]`. -/
theorem extract_wraps_column :
    extract_vertical_lines exF 2 (7/10) = .ok [[(8 : ℚ)], [(5 : ℚ)]]
    ∧ ([[(8 : ℚ)], [(5 : ℚ)]] : List (List ℚ)) ≠ [[(0 : ℚ)], [(5 : ℚ)]] := by
  constructor
  · have h0 : extract_line exF 2 (7/10) 0 = .ok [(8 : ℚ)] := by
      rw [extract_line_eq, exF_column]
      rw [if_neg (by norm_num [exF])]
      norm_num [exF, List.range_succ, show (Int.toNat 8 : Nat) = 8 from rfl]
    have h1 : extract_line exF 2 (7/10) 1 = .ok [(5 : ℚ)] := by
      have hc : computed_column exF 2 (7/10) 1 = 5 := by
        have h : ((exF.width : ℚ) * (7/10)) = ((7 : ℤ) : ℚ) := by norm_num [exF]
        simp only [computed_column, h, py_int_intCast]
        norm_num [exF]
      rw [extract_line_eq, hc]
      rw [if_neg (by norm_num [exF])]
      norm_num [exF, List.range_succ, show (Int.toNat 5 : Nat) = 5 from rfl]
    have hr : List.range 2 = [0, 1] := by simp [List.range_succ]
    simp [extract_vertical_lines, hr, List.mapM, List.mapM.loop, h0, h1,
      Bind.bind, Except.bind, Pure.pure, Except.pure]
  · simp

theorem frame_entry_ok_some (src : FrameSource) (threshold sep inc : ℚ)
    (num_lines top f : Nat) (d t : ℚ)
    (h : frame_entry src threshold sep num_lines top inc f = .ok (some (d, t))) :
    d = (f : ℚ) * inc
    ∧ ∃ ps : List ℤ, ps ≠ [] ∧ (∀ x ∈ ps, 0 < x)
        ∧ t = (ps.map (fun x : ℤ => (x : ℚ))).sum / (ps.length : ℚ) := by
  simp only [frame_entry] at h
  split at h
  · simp at h
  · split at h
    · simp at h
    · split at h
      · simp at h
      · split at h
        · simp at h
        · rename_i ts hts he
          simp only [Except.ok.injEq, Option.some.injEq, Prod.mk.injEq] at h
          refine ⟨h.1.symm, ts.filter (fun x => decide (0 < x)), ?_, ?_, h.2.symm⟩
          · intro hnil
            rw [hnil] at he
            simp at he
          · intro x hx
            have := List.mem_filter.mp hx
            exact of_decide_eq_true this.2

theorem process_frames_length (src : FrameSource) (threshold sep inc : ℚ)
    (num_lines top : Nat) :
    ∀ (idxs : List Nat) (es : List (ℚ × ℚ)),
      process_frames src threshold sep num_lines top inc idxs = .ok es →
      es.length ≤ idxs.length := by
  intro idxs
  induction idxs with
  | nil =>
    intro es h
    simp only [process_frames, Except.ok.injEq] at h
    subst h
    simp
  | cons f rest ih =>
    intro es h
    simp only [process_frames] at h
    split at h
    · simp at h
    · exact le_trans (ih es h) (by simp)
    · split at h
      · simp at h
      · rename_i u pv hfv w es' hes'
        simp only [Except.ok.injEq] at h
        subst h
        simpa using Nat.succ_le_succ (ih es' hes')

theorem process_frames_mem (src : FrameSource) (threshold sep inc : ℚ)
    (num_lines top : Nat) :
    ∀ (idxs : List Nat) (es : List (ℚ × ℚ)),
      process_frames src threshold sep num_lines top inc idxs = .ok es →
      ∀ pr ∈ es, ∃ g ∈ idxs,
        frame_entry src threshold sep num_lines top inc g = .ok (some pr) := by
  intro idxs
  induction idxs with
  | nil =>
    intro es h pr hpr
    simp only [process_frames, Except.ok.injEq] at h
    subst h
    simp at hpr
  | cons f rest ih =>
    intro es h pr hpr
    simp only [process_frames] at h
    split at h
    · simp at h
    · rename_i hnone
      obtain ⟨g, hg, hfe⟩ := ih es h pr hpr
      exact ⟨g, List.mem_cons_of_mem f hg, hfe⟩
    · split at h
      · simp at h
      · rename_i u pv hfv w es' hes'
        simp only [Except.ok.injEq] at h
        subst h
        rcases List.mem_cons.mp hpr with hp | hp
        · subst hp
          exact ⟨f, List.mem_cons_self f rest, hfv⟩
        · obtain ⟨g, hg, hfe⟩ := ih es' hes' pr hp
          exact ⟨g, List.mem_cons_of_mem f hg, hfe⟩

theorem process_frames_fst_mono (src : FrameSource) (threshold sep inc : ℚ)
    (num_lines top : Nat) (hinc : 0 ≤ inc) :
    ∀ (idxs : List Nat) (es : List (ℚ × ℚ)),
      idxs.Pairwise (· ≤ ·) →
      process_frames src threshold sep num_lines top inc idxs = .ok es →
      (es.map Prod.fst).Pairwise (· ≤ ·) := by
  intro idxs
  induction idxs with
  | nil =>
    intro es _ h
    simp only [process_frames, Except.ok.injEq] at h
    subst h
    simp
  | cons f rest ih =>
    intro es hpw h
    simp only [process_frames] at h
    split at h
    · simp at h
    · exact ih es (List.Pairwise.of_cons hpw) h
    · split at h
      · simp at h
      · rename_i u pv hfv w es' hes'
        simp only [Except.ok.injEq] at h
        subst h
        simp only [List.map_cons, List.pairwise_cons]
        constructor
        · intro y hy
          obtain ⟨q, hq, hqy⟩ := List.mem_map.mp hy
          obtain ⟨g, hg, hfe⟩ := process_frames_mem src threshold sep inc num_lines top
            rest es' hes' q hq
          have hd1 := (frame_entry_ok_some src threshold sep inc num_lines top f pv.1 pv.2
            (by rw [hfv])).1
          have hd2 := (frame_entry_ok_some src threshold sep inc num_lines top g q.1 q.2
            (by rw [hfe])).1
          have hfg : f ≤ g := (List.pairwise_cons.mp hpw).1 g hg
          rw [← hqy, hd1, hd2]
          exact mul_le_mul_of_nonneg_right (by exact_mod_cast hfg) hinc
        · exact ih es' (List.Pairwise.of_cons hpw) hes'

theorem analyze_video_ok (src : FrameSource) (frame_interval : Nat) (max_depth : ℚ)
    (num_lines : Nat) (threshold sep : ℚ) (top : Nat) (uez : Bool)
    (fh : Nat) (d : ℚ) (res : AnalyzeResult)
    (h : analyze_video src frame_interval max_depth num_lines threshold sep top uez fh d
      = .ok res) :
    src.frame_count ≠ 0 ∧ frame_interval ≠ 0
    ∧ ∃ series,
        process_frames src threshold sep num_lines (resolve_exclusion src uez fh top d).1
            (max_depth / (src.frame_count : ℚ)) (sampled_indices src.frame_count frame_interval)
          = .ok series
        ∧ res.depths = series.map Prod.fst
        ∧ res.thicknesses = series.map Prod.snd
        ∧ (resolve_exclusion src uez fh top d).2 = some res.total_pixels := by
  simp only [analyze_video] at h
  by_cases h0 : src.frame_count = 0
  · rw [if_pos h0] at h
    cases h
  rw [if_neg h0] at h
  by_cases h1 : frame_interval = 0
  · rw [if_pos h1] at h
    cases h
  rw [if_neg h1] at h
  refine ⟨h0, h1, ?_⟩
  split at h
  · cases h
  · rename_i u series hs
    split at h
    · cases h
    · rename_i w tp htp
      simp only [Except.ok.injEq] at h
      subst h
      exact ⟨series, hs, rfl, rfl, htp⟩

theorem sampled_indices_pairwise (n s : Nat) :
    (sampled_indices n s).Pairwise (· ≤ ·) := by
  unfold sampled_indices
  rw [List.pairwise_map]
  exact (List.pairwise_lt_range _).imp (fun h => Nat.mul_le_mul_right _ (le_of_lt h))

/-- C2: every depth recorded by `analyze_video` equals
`f * max_depth / frame_count` for some sampled frame index `f`, where
`frame_count` is the source's total frame count (the divisor is
independent of the stride and of the number of sampled indices); and,
the maximum depth being non-negative, the depth series is
non-decreasing in frame-index order. -/
theorem analyze_video_depth_formula (src : FrameSource) (frame_interval : Nat)
    (max_depth : ℚ) (num_lines : Nat) (threshold sep : ℚ) (top : Nat) (uez : Bool)
    (fh : Nat) (d : ℚ) (res : AnalyzeResult)
    (hm : 0 ≤ max_depth)
    (h : analyze_video src frame_interval max_depth num_lines threshold sep top uez fh d
      = .ok res) :
    (∀ dep ∈ res.depths, ∃ f ∈ sampled_indices src.frame_count frame_interval,
        dep = (f : ℚ) * max_depth / (src.frame_count : ℚ))
    ∧ res.depths.Pairwise (· ≤ ·) := by
  obtain ⟨h0, h1, series, hs, hd, ht, htp⟩ :=
    analyze_video_ok src frame_interval max_depth num_lines threshold sep top uez fh d res h
  constructor
  · intro dep hdep
    rw [hd] at hdep
    obtain ⟨q, hq, hqd⟩ := List.mem_map.mp hdep
    obtain ⟨g, hg, hfe⟩ := process_frames_mem src threshold sep
      (max_depth / (src.frame_count : ℚ)) num_lines (resolve_exclusion src uez fh top d).1
      (sampled_indices src.frame_count frame_interval) series hs q hq
    have hd1 := (frame_entry_ok_some src threshold sep (max_depth / (src.frame_count : ℚ))
      num_lines (resolve_exclusion src uez fh top d).1 g q.1 q.2 (by rw [hfe])).1
    refine ⟨g, hg, ?_⟩
    rw [← hqd, hd1, mul_div_assoc]
  · rw [hd]
    exact process_frames_fst_mono src threshold sep (max_depth / (src.frame_count : ℚ))
      num_lines (resolve_exclusion src uez fh top d).1
      (div_nonneg hm (by positivity))
      (sampled_indices src.frame_count frame_interval) series
      (sampled_indices_pairwise _ _) hs

/-- C6: the series produced by `analyze_video` has at most one entry
per sampled frame index, the depth and thickness lists are aligned,
and every recorded thickness is the arithmetic mean of a non-empty
list of strictly positive per-line thicknesses — hence strictly
positive (frames with no valid measurement contribute no entry). -/
theorem analyze_video_series_invariant (src : FrameSource) (frame_interval : Nat)
    (max_depth : ℚ) (num_lines : Nat) (threshold sep : ℚ) (top : Nat) (uez : Bool)
    (fh : Nat) (d : ℚ) (res : AnalyzeResult)
    (h : analyze_video src frame_interval max_depth num_lines threshold sep top uez fh d
      = .ok res) :
    res.depths.length ≤ (sampled_indices src.frame_count frame_interval).length
    ∧ res.thicknesses.length = res.depths.length
    ∧ ∀ t ∈ res.thicknesses,
        (∃ ps : List ℤ, ps ≠ [] ∧ (∀ x ∈ ps, 0 < x)
          ∧ t = (ps.map (fun x : ℤ => (x : ℚ))).sum / (ps.length : ℚ))
        ∧ 0 < t := by
  obtain ⟨h0, h1, series, hs, hd, ht, htp⟩ :=
    analyze_video_ok src frame_interval max_depth num_lines threshold sep top uez fh d res h
  refine ⟨?_, ?_, ?_⟩
  · rw [hd]
    simpa using process_frames_length src threshold sep (max_depth / (src.frame_count : ℚ))
      num_lines (resolve_exclusion src uez fh top d).1
      (sampled_indices src.frame_count frame_interval) series hs
  · rw [hd, ht]
    simp
  · intro t htm
    rw [ht] at htm
    obtain ⟨q, hq, hqt⟩ := List.mem_map.mp htm
    obtain ⟨g, hg, hfe⟩ := process_frames_mem src threshold sep
      (max_depth / (src.frame_count : ℚ)) num_lines (resolve_exclusion src uez fh top d).1
      (sampled_indices src.frame_count frame_interval) series hs q hq
    obtain ⟨hd1, ps, hps, hpos, hmean⟩ := frame_entry_ok_some src threshold sep
      (max_depth / (src.frame_count : ℚ)) num_lines (resolve_exclusion src uez fh top d).1
      g q.1 q.2 (by rw [hfe])
    refine ⟨⟨ps, hps, hpos, by rw [← hqt]; exact hmean⟩, ?_⟩
    rw [← hqt, hmean]
    apply div_pos
    · apply List.sum_pos
      · intro x hx
        obtain ⟨z, hz, hzx⟩ := List.mem_map.mp hx
        rw [← hzx]
        exact_mod_cast hpos z hz
      · intro hnil
        rw [List.map_eq_nil_iff] at hnil
        exact hps hnil
    · have hlen : 0 < ps.length := List.length_pos.mpr hps
      exact_mod_cast hlen

theorem resolve_exclusion_disabled (src : FrameSource) (fh top : Nat) (d : ℚ) :
    resolve_exclusion src false fh top d = (top, some ((fh : ℤ))) := rfl

theorem resolve_exclusion_enabled (src : FrameSource) (fh top : Nat) (d : ℚ)
    (fr : ColorFrame) (h : src.read 0 = some fr) :
    resolve_exclusion src true fh top d
      = ((py_int d).toNat, some ((fh : ℤ) - ((py_int d).toNat : ℤ))) := by
  simp [resolve_exclusion, h]

/-- C3: the calibration is the single constant
`pixel_to_mm_ratio = max_depth / total_usable_pixels` computed once at
module level, with `total_usable_pixels = frame_height` when the
exclusion zone is disabled and `frame_height − int(exclusion_depth)`
when it is enabled; every millimetre thickness is the pixel thickness
times that one ratio, and ratio × total_usable_pixels recovers
max_depth. -/
theorem calibration_ratio (src : FrameSource) (frame_interval : Nat) (max_depth : ℚ)
    (num_lines : Nat) (threshold sep : ℚ) (top : Nat) (uez : Bool)
    (fh : Nat) (d : ℚ) (res : AnalyzeResult) (r : ℚ) (tmm : List ℚ)
    (h : analyze_video src frame_interval max_depth num_lines threshold sep top uez fh d
      = .ok res)
    (hc : main_convert max_depth res = .ok (r, tmm)) :
    r = max_depth / (res.total_pixels : ℚ)
    ∧ r * (res.total_pixels : ℚ) = max_depth
    ∧ tmm = res.thicknesses.map (fun t => t * r)
    ∧ (uez = false → res.total_pixels = (fh : ℤ))
    ∧ (uez = true → res.total_pixels = (fh : ℤ) - ((py_int d).toNat : ℤ)) := by
  have hz : res.total_pixels ≠ 0 := by
    intro hz
    rw [main_convert, if_pos hz] at hc
    cases hc
  rw [main_convert, if_neg hz] at hc
  simp only [Except.ok.injEq, Prod.mk.injEq] at hc
  obtain ⟨h0, h1, series, hs, hd, ht, htp⟩ :=
    analyze_video_ok src frame_interval max_depth num_lines threshold sep top uez fh d res h
  refine ⟨hc.1.symm, ?_, ?_, ?_, ?_⟩
  · rw [← hc.1]
    exact div_mul_cancel₀ max_depth (by exact_mod_cast hz)
  · rw [← hc.2, ← hc.1]
  · intro huez
    subst huez
    rw [resolve_exclusion_disabled] at htp
    simp only [Option.some.injEq] at htp
    exact htp.symm
  · intro huez
    subst huez
    rcases hread : src.read 0 with _ | fr
    · simp only [resolve_exclusion, if_pos rfl, hread] at htp
      cases htp
    · rw [resolve_exclusion_enabled src fh top d fr hread] at htp
      simp only [Option.some.injEq] at htp
      exact htp.symm

/-- A 3×4 colour frame whose middle row is bright (BGR 200) and whose
other rows are black: each column profile is the pulse `[0, 200, 0]`. -/
def wFrame : ColorFrame := ⟨3, 4, fun r _ => if r = 1 then (200, 200, 200) else (0, 0, 0)⟩

/-- A 2-frame source of `wFrame`s, height 3, width 4, every read
succeeding. -/
def wSrc : FrameSource := ⟨2, 3, 4, fun _ => some wFrame⟩

/-- The series `analyze_video` produces on `wSrc` with stride 1,
max depth 500 and no exclusion. -/
def wRes : AnalyzeResult := ⟨[0, 250], [1, 1], 3⟩

theorem wGray (r c : Nat) :
    (cvtColor_gray wFrame).pix r c = if r = 1 then (200 : ℚ) else 0 := by
  by_cases hr : r = 1 <;>
    simp [cvtColor_gray, wFrame, saturate_uint8, hr] <;> norm_num

theorem wMasked (r c : Nat) (hr : r < 3) (hc : c < 4) :
    (mask_top (preprocess_frame wFrame) 0).pix r c = if r = 1 then (200 : ℚ) else 0 := by
  simp only [mask_top]
  rw [if_neg (by omega)]
  rw [preprocess_frame_pix wFrame r c hr hc]
  exact wGray r c

theorem wColumn : computed_column (mask_top (preprocess_frame wFrame) 0) 1 (1/10) 0 = 2 := by
  have hw : (mask_top (preprocess_frame wFrame) 0).width = 4 := rfl
  have h4 : ((mask_top (preprocess_frame wFrame) 0).width : ℚ) * (1/10) = mkRat 2 5 := by
    rw [hw, Rat.mkRat_eq_div]
    norm_num
  have h5 : py_int (mkRat 2 5) = 0 := rfl
  simp only [computed_column, h4, h5, hw]
  norm_num

theorem wLine :
    extract_vertical_lines (mask_top (preprocess_frame wFrame) 0) 1 (1/10)
      = .ok [[(0 : ℚ), 200, 0]] := by
  have hw : (mask_top (preprocess_frame wFrame) 0).width = 4 := rfl
  have hh : (mask_top (preprocess_frame wFrame) 0).height = 3 := rfl
  have h0 : extract_line (mask_top (preprocess_frame wFrame) 0) 1 (1/10) 0
      = .ok [(0 : ℚ), 200, 0] := by
    rw [extract_line_eq, wColumn, hw]
    rw [if_neg (by norm_num)]
    rw [if_neg (by norm_num)]
    rw [hh]
    have hr3 : List.range 3 = [0, 1, 2] := by simp [List.range_succ]
    rw [hr3]
    simp only [List.map_cons, List.map_nil, show Int.toNat 2 = 2 from rfl]
    rw [wMasked 0 2 (by norm_num) (by norm_num), wMasked 1 2 (by norm_num) (by norm_num),
      wMasked 2 2 (by norm_num) (by norm_num)]
    norm_num
  have hr1 : List.range 1 = [0] := rfl
  simp only [extract_vertical_lines, hr1, List.mapM, List.mapM.loop,
    Bind.bind, Except.bind, Pure.pure, Except.pure]
  rw [h0]
  rfl

theorem wThickness : calculate_thickness [(0 : ℚ), 200, 0] (1/2) = .ok 1 := by
  have hmax : np_max [(0 : ℚ), 200, 0] = some 200 := by
    norm_num [np_max]
  simp only [calculate_thickness, hmax]
  norm_num [scan_aux, scan_step]

theorem wEntry (f : Nat) :
    frame_entry wSrc (1/2) (1/10) 1 0 250 f = .ok (some ((f : ℚ) * 250, 1)) := by
  have hread : wSrc.read f = some wFrame := rfl
  simp only [frame_entry, hread]
  rw [wLine]
  simp only [List.mapM, List.mapM.loop, Bind.bind, Except.bind, Pure.pure, Except.pure]
  rw [wThickness]
  norm_num [List.filter]

theorem wAnalyze_eval :
    analyze_video wSrc 1 500 1 (1/2) (1/10) 0 false 3 0 = .ok wRes := by
  simp only [analyze_video]
  rw [if_neg (by norm_num [wSrc]), if_neg (by norm_num)]
  have hsi : sampled_indices wSrc.frame_count 1 = [0, 1] := by
    norm_num [sampled_indices, wSrc, List.range_succ]
  have hinc : (500 : ℚ) / (wSrc.frame_count : ℚ) = 250 := by
    norm_num [wSrc]
  rw [hsi, hinc, resolve_exclusion_disabled]
  simp only [process_frames]
  rw [wEntry 0, wEntry 1]
  simp only [process_frames]
  norm_num [wRes]

/-- Concrete run of C2: on `wSrc` (2 frames, max depth 500) the
recorded depths are 0 and 250 = 1 × 500 / 2, in non-decreasing order. -/
theorem analyze_video_depth_formula_witness :
    (∀ dep ∈ wRes.depths, ∃ f ∈ sampled_indices wSrc.frame_count 1,
        dep = (f : ℚ) * 500 / (wSrc.frame_count : ℚ))
    ∧ wRes.depths.Pairwise (· ≤ ·) :=
  analyze_video_depth_formula wSrc 1 500 1 (1/2) (1/10) 0 false 3 0 wRes
    (by norm_num) wAnalyze_eval

/-- Concrete run of C6: on `wSrc` the series has 2 entries for 2
sampled indices and each thickness 1 is a positive mean. -/
theorem analyze_video_series_invariant_witness :
    wRes.depths.length ≤ (sampled_indices wSrc.frame_count 1).length
    ∧ wRes.thicknesses.length = wRes.depths.length
    ∧ ∀ t ∈ wRes.thicknesses,
        (∃ ps : List ℤ, ps ≠ [] ∧ (∀ x ∈ ps, 0 < x)
          ∧ t = (ps.map (fun x : ℤ => (x : ℚ))).sum / (ps.length : ℚ))
        ∧ 0 < t :=
  analyze_video_series_invariant wSrc 1 500 1 (1/2) (1/10) 0 false 3 0 wRes wAnalyze_eval

/-- Concrete run of C3: on `wSrc` with exclusion disabled the ratio is
500/3 = max_depth / frame_height, both thicknesses convert by that one
ratio, and the ratio times the 3 usable pixels recovers 500. -/
theorem calibration_ratio_witness :
    (500/3 : ℚ) = 500 / (wRes.total_pixels : ℚ)
    ∧ (500/3 : ℚ) * (wRes.total_pixels : ℚ) = 500
    ∧ ([(500/3 : ℚ), 500/3]) = wRes.thicknesses.map (fun t => t * (500/3))
    ∧ (false = false → wRes.total_pixels = ((3 : Nat) : ℤ))
    ∧ (false = true → wRes.total_pixels = ((3 : Nat) : ℤ) - ((py_int 0).toNat : ℤ)) := by
  have hconv : main_convert 500 wRes = .ok (500/3, [(500/3 : ℚ), 500/3]) := by
    norm_num [main_convert, wRes]
  exact calibration_ratio wSrc 1 500 1 (1/2) (1/10) 0 false 3 0 wRes (500/3)
    [(500/3 : ℚ), 500/3] wAnalyze_eval hconv

/-- C9: whenever the exclusion zone is enabled, the module-level call
to `analyze_video` must evaluate the argument expression
`top_threshold_pixels if use_exclusion_zone else 0`; the name
`top_threshold_pixels` is never assigned at module scope, so the run
fails with a NameError before the analysis starts — the
exclusion-enabled path of the entry point can never return a series. -/
theorem exclusion_run_name_error (src : FrameSource) (max_depth_mm : ℚ)
    (frame_interval num_lines : Nat) (use_multiple_lines : Bool)
    (exclusion_zone_depth : ℚ) :
    run_main src max_depth_mm frame_interval num_lines use_multiple_lines true
      exclusion_zone_depth = .error .nameError := by
  have h : top_threshold_arg true = .error .nameError := by
    simp [top_threshold_arg, module_scope_names]
  simp only [run_main, h]

/-- A source with zero frames (reads never succeed), height 4. -/
def zSrc : FrameSource := ⟨0, 4, 4, fun _ => none⟩

/-- Counterexample to C8 as stated: a zero-frame source makes the
analysis crash with an (unhandled) ZeroDivisionError at
`depth_increment = max_depth / frame_count`, not fail with the
`EmptySource` error the claim names — no such check exists. -/
theorem zero_frames_divzero_not_empty_source :
    analyze_video zSrc 1 500 1 (1/2) (1/10) 0 false 4 0 = .error .zeroDivisionError
    ∧ PyErr.zeroDivisionError ≠ PyErr.emptySource := by
  constructor
  · simp only [analyze_video]
    rw [if_pos (show zSrc.frame_count = 0 from rfl)]
  · simp

/-- C8, amended: for a source whose total frame count is zero, the
analysis fails — with a ZeroDivisionError raised while computing
`depth_increment = max_depth / frame_count` — before any frame is
processed, and no series is produced; there is no explicit
`EmptySource` rejection. -/
theorem analyze_video_zero_frames (src : FrameSource) (frame_interval : Nat)
    (max_depth : ℚ) (num_lines : Nat) (threshold sep : ℚ) (top : Nat)
    (uez : Bool) (fh : Nat) (d : ℚ) (h : src.frame_count = 0) :
    analyze_video src frame_interval max_depth num_lines threshold sep top uez fh d
      = .error .zeroDivisionError := by
  simp only [analyze_video]
  rw [if_pos h]

/-- Concrete run of amended C8 at the zero-frame source. -/
theorem analyze_video_zero_frames_witness :
    zSrc.frame_count = 0
    ∧ analyze_video zSrc 1 500 1 (1/2) (1/10) 0 true 4 2 = .error .zeroDivisionError :=
  ⟨rfl, analyze_video_zero_frames zSrc 1 500 1 (1/2) (1/10) 0 true 4 2 rfl⟩

/-- A uniformly bright 4×4 colour frame. -/
def bFrame : ColorFrame := ⟨4, 4, fun _ _ => (200, 200, 200)⟩

/-- A 1-frame source of `bFrame`s, height 4, width 4. -/
def bSrc : FrameSource := ⟨1, 4, 4, fun _ => some bFrame⟩

theorem bMasked (r c : Nat) (hr : r < 4) :
    (mask_top (preprocess_frame bFrame) 4).pix r c = 0 := by
  simp only [mask_top]
  rw [if_pos hr]

theorem bColumn : computed_column (mask_top (preprocess_frame bFrame) 4) 1 (1/10) 0 = 2 := by
  have hw : (mask_top (preprocess_frame bFrame) 4).width = 4 := rfl
  have h4 : ((mask_top (preprocess_frame bFrame) 4).width : ℚ) * (1/10) = mkRat 2 5 := by
    rw [hw, Rat.mkRat_eq_div]
    norm_num
  have h5 : py_int (mkRat 2 5) = 0 := rfl
  simp only [computed_column, h4, h5, hw]
  norm_num

theorem bLine :
    extract_vertical_lines (mask_top (preprocess_frame bFrame) 4) 1 (1/10)
      = .ok [[(0 : ℚ), 0, 0, 0]] := by
  have hw : (mask_top (preprocess_frame bFrame) 4).width = 4 := rfl
  have hh : (mask_top (preprocess_frame bFrame) 4).height = 4 := rfl
  have h0 : extract_line (mask_top (preprocess_frame bFrame) 4) 1 (1/10) 0
      = .ok [(0 : ℚ), 0, 0, 0] := by
    rw [extract_line_eq, bColumn, hw]
    rw [if_neg (by norm_num)]
    rw [if_neg (by norm_num)]
    rw [hh]
    have hr4 : List.range 4 = [0, 1, 2, 3] := by simp [List.range_succ]
    rw [hr4]
    simp only [List.map_cons, List.map_nil, show Int.toNat 2 = 2 from rfl]
    rw [bMasked 0 2 (by norm_num), bMasked 1 2 (by norm_num),
      bMasked 2 2 (by norm_num), bMasked 3 2 (by norm_num)]
  have hr1 : List.range 1 = [0] := rfl
  simp only [extract_vertical_lines, hr1, List.mapM, List.mapM.loop,
    Bind.bind, Except.bind, Pure.pure, Except.pure]
  rw [h0]
  rfl

theorem bThickness : calculate_thickness [(0 : ℚ), 0, 0, 0] (1/2) = .ok 0 := by
  have hmax : np_max [(0 : ℚ), 0, 0, 0] = some 0 := by
    norm_num [np_max]
  simp only [calculate_thickness, hmax]
  norm_num [scan_aux, scan_step]

theorem bEntry :
    frame_entry bSrc (1/2) (1/10) 1 4 (500 / (bSrc.frame_count : ℚ)) 0 = .ok none := by
  have hread : bSrc.read 0 = some bFrame := rfl
  simp only [frame_entry, hread]
  rw [bLine]
  simp only [List.mapM, List.mapM.loop, Bind.bind, Except.bind, Pure.pure, Except.pure]
  rw [bThickness]
  norm_num [List.filter]

/-- C4 evaluated on the failing input: the validation loop of the
exclusion-zone prompt (`while depth < 0 or depth > height`) accepts
the boundary offset `depth = frame_height = 4`, the analysis then runs
with zero usable pixels and returns `total_pixels = 0`, and the
module-level ratio `max_depth / total_pixels` raises ZeroDivisionError
— the offset is never rejected. -/
theorem exclusion_boundary_accepted :
    exclusion_input_rejected 4 4 = false
    ∧ analyze_video bSrc 1 500 1 (1/2) (1/10) 0 true 4 4 = .ok ⟨[], [], 0⟩
    ∧ main_convert 500 ⟨[], [], 0⟩ = .error .zeroDivisionError := by
  refine ⟨?_, ?_, ?_⟩
  · simp only [exclusion_input_rejected]
    norm_num
  · simp only [analyze_video]
    rw [if_neg (by norm_num [bSrc]), if_neg (by norm_num)]
    have hrz : resolve_exclusion bSrc true 4 0 4 = (4, some 0) := by
      rw [resolve_exclusion_enabled bSrc 4 0 4 bFrame rfl]
      norm_num [show py_int 4 = 4 from rfl, show Int.toNat 4 = 4 from rfl]
    rw [hrz]
    have hsi : sampled_indices bSrc.frame_count 1 = [0] := by
      norm_num [sampled_indices, bSrc, List.range_succ]
    rw [hsi]
    simp only [process_frames]
    rw [bEntry]
    rfl
  · simp [main_convert]
